import Mathlib

/-!
Shallow embedding of `src/xymaker.py` (class `XYMaker` and `main`).

The program aligns a feature CSV table with a label/target CSV table by
record identifier (first field of each data row).  Tables are lists of
rows, each row a list of text fields; row 0 is the header.  The Python
dict used for label lookup is modelled as an association list where the
most recent insertion is at the head, so that `List.lookup` returns the
value of the last write, matching Python dict lookup and membership.

File system effects are modelled by abstract outcomes: a read either
yields the file's characters or one of the error conditions caught in
`_read_csv`; a write either succeeds or raises one of the exceptions
caught in `_save_csv`.  The `csv` module's reader and writer (default
dialect: delimiter as configured, quotechar `"`, doublequote, minimal
quoting, `\r\n` line terminator, file opened with `newline=''`) are
modelled character by character below.
-/

namespace XYMaker

/-- Rows of text fields; row 0 is the header (the `List[List[str]]`
tables of xymaker.py). -/
abbrev Table := List (List String)

/-- One insertion into the Python dict of `_create_labels_dict`: the new
binding shadows any earlier binding of the same key. -/
def dictInsert (d : List (String × String)) (k v : String) : List (String × String) :=
  (k, v) :: d

/-- Model of `XYMaker._create_labels_dict` (src/xymaker.py:120-132): for
each target data row that is non-empty and has more fields than the
column index, insert `row[0] -> row[column]`; other rows are skipped. -/
def create_labels_dict (labels_data : Table) (column : Nat) : List (String × String) :=
  (labels_data.drop 1).foldl
    (fun d row =>
      if row ≠ [] ∧ column < row.length then dictInsert d (row.headD "") (row.getD column "")
      else d)
    []

/-- State of the alignment loop of `_align_data`: the accumulated
`aligned_x_data`, `aligned_y_data` and the two counters. -/
structure AlignState where
  x : List (List String)
  y : List (List String)
  matched : Nat
  unmatched : Nat
deriving DecidableEq

/-- One iteration of the loop body of `XYMaker._align_data`
(src/xymaker.py:148-159). -/
def alignStep (labels_dict : List (String × String)) (s : AlignState) (row : List String) :
    AlignState :=
  if row = [] then s
  else
    match labels_dict.lookup (row.headD "") with
    | some label =>
        { s with x := s.x ++ [row], y := s.y ++ [[label]], matched := s.matched + 1 }
    | none => { s with unmatched := s.unmatched + 1 }

/-- Model of `XYMaker._align_data` (src/xymaker.py:134-161): fold the loop
body over the feature data rows, starting from the state that already
holds the two headers appended by `process`. -/
def align_data (features_data : Table) (labels_dict : List (String × String))
    (s : AlignState) : AlignState :=
  (features_data.drop 1).foldl (alignStep labels_dict) s

/-- Abstract outcome of opening an input file in `_read_csv`: either the
file's raw characters, or one of the caught error conditions (missing
file, permission denied, or any other failure such as a parse error). -/
inductive ReadOutcome
  | file (contents : String)
  | fileNotFound
  | permissionDenied
  | otherFailure
deriving DecidableEq

/-- Abstract outcome of the file write attempted by `_save_csv`: success,
or one of the exceptions the method catches. -/
inductive WriteOutcome
  | success
  | permissionDenied
  | otherFailure
deriving DecidableEq

/-- Errors surfaced by `XYMaker.process` before the alignment phase:
the empty-input check (src/xymaker.py:87-89) and the column-bound check
(src/xymaker.py:92-95). -/
inductive ProcessError
  | emptyInput
  | invalidColumn
deriving DecidableEq

/-- Observable result of one `XYMaker.process` call: the returned
`(matched, unmatched)` counts, the early error taken (if any), the tables
passed to `_save_csv` in call order, and the boolean results of those
save calls. -/
structure ProcessResult where
  counts : Nat × Nat
  err : Option ProcessError
  writeAttempts : List Table
  writeResults : List Bool
deriving DecidableEq

end XYMaker

namespace XYMaker

/-! CSV reader model.  `_read_csv` iterates `csv.reader(csvfile,
delimiter=self.delimiter)` over a file opened with `newline=''`.  The
reader is a character state machine (default dialect: quotechar `"`,
doublequote=True, strict=False); `\r\n`, lone `\r` and lone `\n` all
terminate a record, a blank line yields an empty record, and a quoted
field may contain delimiters, quotes (doubled) and line breaks.  Every
character added to a field passes the `csv.field_size_limit()` check:
once a field holds that many characters, adding another raises
`csv.Error`, which aborts the whole read. -/

/-- The default `csv.field_size_limit()`: a field may hold at most this
many characters. -/
def fieldLimit : Nat := 131072

/-- Model of `parse_add_char` in CPython's `_csv.c`: append one
character to the current field, failing with `csv.Error` (here `none`)
when the field has already reached the field size limit. -/
def csvAddChar (field : List Char) (c : Char) : Option (List Char) :=
  if fieldLimit ≤ field.length then none else some (field ++ [c])

/-- States of the csv.reader character machine.  `row` holds the finished
fields of the current record, `field` the characters of the current
field.  `eatLf` skips the `\n` of a `\r\n` terminator whose record has
already been emitted. -/
inductive CsvSt
  | startRecord
  | eatLf
  | startField (row : List String)
  | inField (row : List String) (field : List Char)
  | inQuoted (row : List String) (field : List Char)
  | quoteInQuoted (row : List String) (field : List Char)

/-- End of input: emit the pending record, if one is in progress. -/
def csvEof : CsvSt → List (List String)
  | .startRecord => []
  | .eatLf => []
  | .startField row => [row ++ [""]]
  | .inField row field => [row ++ [String.mk field]]
  | .inQuoted row field => [row ++ [String.mk field]]
  | .quoteInQuoted row field => [row ++ [String.mk field]]

/-- The csv.reader state machine, one character per step; `none` means
the reader raised `csv.Error` (field larger than the field limit). -/
def csvParseAux (d : Char) : List Char → CsvSt → Option (List (List String))
  | [], st => some (csvEof st)
  | c :: cs, .startRecord =>
      if c = '"' then csvParseAux d cs (.inQuoted [] [])
      else if c = d then csvParseAux d cs (.startField [""])
      else if c = '\r' then (csvParseAux d cs .eatLf).map (fun t => [] :: t)
      else if c = '\n' then (csvParseAux d cs .startRecord).map (fun t => [] :: t)
      else (csvAddChar [] c).bind fun fld => csvParseAux d cs (.inField [] fld)
  | c :: cs, .eatLf =>
      if c = '\n' then csvParseAux d cs .startRecord
      else if c = '"' then csvParseAux d cs (.inQuoted [] [])
      else if c = d then csvParseAux d cs (.startField [""])
      else if c = '\r' then (csvParseAux d cs .eatLf).map (fun t => [] :: t)
      else (csvAddChar [] c).bind fun fld => csvParseAux d cs (.inField [] fld)
  | c :: cs, .startField row =>
      if c = '"' then csvParseAux d cs (.inQuoted row [])
      else if c = d then csvParseAux d cs (.startField (row ++ [""]))
      else if c = '\r' then (csvParseAux d cs .eatLf).map (fun t => (row ++ [""]) :: t)
      else if c = '\n' then
        (csvParseAux d cs .startRecord).map (fun t => (row ++ [""]) :: t)
      else (csvAddChar [] c).bind fun fld => csvParseAux d cs (.inField row fld)
  | c :: cs, .inField row field =>
      if c = d then csvParseAux d cs (.startField (row ++ [String.mk field]))
      else if c = '\r' then
        (csvParseAux d cs .eatLf).map (fun t => (row ++ [String.mk field]) :: t)
      else if c = '\n' then
        (csvParseAux d cs .startRecord).map (fun t => (row ++ [String.mk field]) :: t)
      else (csvAddChar field c).bind fun fld => csvParseAux d cs (.inField row fld)
  | c :: cs, .inQuoted row field =>
      if c = '"' then csvParseAux d cs (.quoteInQuoted row field)
      else (csvAddChar field c).bind fun fld => csvParseAux d cs (.inQuoted row fld)
  | c :: cs, .quoteInQuoted row field =>
      if c = '"' then (csvAddChar field '"').bind fun fld =>
        csvParseAux d cs (.inQuoted row fld)
      else if c = d then csvParseAux d cs (.startField (row ++ [String.mk field]))
      else if c = '\r' then
        (csvParseAux d cs .eatLf).map (fun t => (row ++ [String.mk field]) :: t)
      else if c = '\n' then
        (csvParseAux d cs .startRecord).map (fun t => (row ++ [String.mk field]) :: t)
      else (csvAddChar field c).bind fun fld => csvParseAux d cs (.inField row fld)

/-- Parse a whole file's characters, as `csv.reader` does in
`_read_csv`; `none` is a raised `csv.Error`. -/
def csvParse (d : Char) (s : String) : Option (List (List String)) :=
  csvParseAux d s.toList .startRecord

/-! CSV writer model.  `_save_csv` calls `csv.writer(...).writerows`
with the default dialect: minimal quoting, doubled quote characters,
`\r\n` line terminator. -/

/-- Escape a field body for quoted output: each `"` becomes `""`. -/
def csvEscape : List Char → List Char
  | [] => []
  | c :: cs => if c = '"' then '"' :: '"' :: csvEscape cs else c :: csvEscape cs

/-- Minimal quoting: a field must be quoted iff it contains the
delimiter, the quote character, or a line-break character. -/
def csvNeedsQuote (d : Char) (f : List Char) : Bool :=
  f.any (fun c => c = d ∨ c = '"' ∨ c = '\r' ∨ c = '\n')

/-- Render one field.  Besides minimally required quoting, csv.writer
also quotes an empty field when it is the record's only field, so that
the record is not read back as an empty record. -/
def csvRenderField (d : Char) (soleField : Bool) (f : String) : List Char :=
  if csvNeedsQuote d f.toList || (soleField && f.toList.isEmpty) then
    '"' :: (csvEscape f.toList ++ ['"'])
  else f.toList

/-- Render the second and later fields of a record, each preceded by the
delimiter is handled by the caller; the record terminator closes it. -/
def csvRenderRow2 (d : Char) (f : String) : List String → List Char
  | [] => csvRenderField d false f ++ ['\r', '\n']
  | f2 :: fs => csvRenderField d false f ++ d :: csvRenderRow2 d f2 fs

/-- Render one record followed by the `\r\n` terminator. -/
def csvRenderRow (d : Char) : List String → List Char
  | [] => ['\r', '\n']
  | [f] => csvRenderField d true f ++ ['\r', '\n']
  | f :: f2 :: fs => csvRenderField d false f ++ d :: csvRenderRow2 d f2 fs

/-- Render a whole table, record by record. -/
def csvRenderTable (d : Char) : Table → List Char
  | [] => []
  | r :: rs => csvRenderRow d r ++ csvRenderTable d rs

/-- The characters `csv.writer(...).writerows(data)` produces. -/
def csvRender (d : Char) (data : Table) : String :=
  String.mk (csvRenderTable d data)

/-- Model of `XYMaker._read_csv` (src/xymaker.py:163-186): a successful
open parses the file's characters with csv.reader; every caught error
(missing file, permission, a `csv.Error` raised mid-parse, or any other
exception) yields the empty table — rows accumulated before the error
are discarded.  The function is total: no exception escapes the
reader. -/
def read_csv (d : Char) : ReadOutcome → Table
  | .file contents => (csvParse d contents).getD []
  | .fileNotFound => []
  | .permissionDenied => []
  | .otherFailure => []

/-- Model of `XYMaker._save_csv` (src/xymaker.py:188-209): on success the
rendered characters are written and True is returned; every caught
exception yields False and no content.  The function is total: no
exception escapes the writer. -/
def save_csv (d : Char) (w : WriteOutcome) (data : Table) : Bool × Option String :=
  match w with
  | .success => (true, some (csvRender d data))
  | .permissionDenied => (false, none)
  | .otherFailure => (false, none)

/-- Model of `XYMaker.process` (src/xymaker.py:76-118) from the point
where both tables are in memory: the empty-input check, the column-bound
check, header setup, dict construction, alignment, and the two save
calls.  `column` is the validated (non-negative) column index. -/
def processTables (d : Char) (features_data labels_data : Table) (column : Nat)
    (wx wy : WriteOutcome) : ProcessResult :=
  if features_data = [] ∨ labels_data = [] then
    { counts := (0, 0), err := some .emptyInput, writeAttempts := [], writeResults := [] }
  else if (labels_data.headD []).length ≤ column then
    { counts := (0, 0), err := some .invalidColumn, writeAttempts := [], writeResults := [] }
  else
    let label_column_name := (labels_data.headD []).getD column ""
    let x_header := features_data.headD []
    let labels_dict := create_labels_dict labels_data column
    let s := align_data features_data labels_dict
      { x := [x_header], y := [[label_column_name]], matched := 0, unmatched := 0 }
    { counts := (s.matched, s.unmatched)
      err := none
      writeAttempts := [s.x, s.y]
      writeResults := [(save_csv d wx s.x).fst, (save_csv d wy s.y).fst] }

/-- Model of `XYMaker.process` including the two reads
(src/xymaker.py:84-85). -/
def process (d : Char) (fr lr : ReadOutcome) (column : Nat) (wx wy : WriteOutcome) :
    ProcessResult :=
  processTables d (read_csv d fr) (read_csv d lr) column wx wy

/-- Result of the processing part of `main` (src/xymaker.py:256-274),
which rejects a column index below 1 before constructing an `XYMaker`. -/
inductive RunResult
  | columnRejected
  | processed (r : ProcessResult)
deriving DecidableEq

/-- Model of `main`'s tail (src/xymaker.py:256-274), after both input
paths were found to exist: validate the 1-based column index, then run
`process`. -/
def runXY (d : Char) (fr lr : ReadOutcome) (column : Int) (wx wy : WriteOutcome) : RunResult :=
  if column < 1 then .columnRejected
  else .processed (process d fr lr column.toNat wx wy)

/-- Tables handed to `_save_csv` during a run (none when the run was
rejected in `main`). -/
def RunResult.writes : RunResult → List Table
  | .columnRejected => []
  | .processed r => r.writeAttempts

/-- Whether the run was aborted because of an out-of-range column index,
either by `main`'s lower-bound check or by `process`'s upper-bound
check. -/
def RunResult.isColumnAbort : RunResult → Bool
  | .columnRejected => true
  | .processed r => decide (r.err = some .invalidColumn)

/-- The predicate deciding whether `_align_data` keeps a feature row:
non-empty, and its identifier is a key of the labels dict. -/
def keepRow (labels_dict : List (String × String)) (r : List String) : Bool :=
  !r.isEmpty && ((labels_dict.lookup (r.headD "")).isSome)

/-- The predicate deciding whether `_align_data` reports a feature row as
unmatched: non-empty, and its identifier has no entry in the dict. -/
def dropRow (labels_dict : List (String × String)) (r : List String) : Bool :=
  !r.isEmpty && !((labels_dict.lookup (r.headD "")).isSome)

/-- Feature data rows kept by `_align_data`, in feature-table order. -/
def matchedRows (features_data : Table) (labels_dict : List (String × String)) :
    List (List String) :=
  (features_data.drop 1).filter (keepRow labels_dict)

/-- Feature data rows reported unmatched by `_align_data`. -/
def unmatchedRows (features_data : Table) (labels_dict : List (String × String)) :
    List (List String) :=
  (features_data.drop 1).filter (dropRow labels_dict)

/-- The single-field Y row emitted for a matched feature row. -/
def rowLabel (labels_dict : List (String × String)) (r : List String) : List String :=
  [(labels_dict.lookup (r.headD "")).getD ""]

/-- Characterization of the `_align_data` loop: folding `alignStep` over
any list of rows appends exactly the kept rows to X, their labels to Y,
and adds the kept/dropped tallies to the counters. -/
theorem alignStep_foldl_spec (labels_dict : List (String × String)) (rows : List (List String))
    (s : AlignState) :
    rows.foldl (alignStep labels_dict) s =
      { x := s.x ++ rows.filter (keepRow labels_dict),
        y := s.y ++ (rows.filter (keepRow labels_dict)).map (rowLabel labels_dict),
        matched := s.matched + (rows.filter (keepRow labels_dict)).length,
        unmatched := s.unmatched + (rows.filter (dropRow labels_dict)).length } := by
  induction rows generalizing s with
  | nil => simp
  | cons r rs ih =>
    rw [List.foldl_cons, ih]
    by_cases hr : r = []
    · subst hr
      simp [alignStep, keepRow, dropRow]
    · have hne : r.isEmpty = false := List.isEmpty_eq_false.mpr hr
      cases hl : labels_dict.lookup (r.headD "") with
      | some v =>
        have hkeep : keepRow labels_dict r = true := by
          unfold keepRow
          rw [hne, hl]
          rfl
        have hdrop : dropRow labels_dict r = false := by
          unfold dropRow
          rw [hne, hl]
          rfl
        have hlab : rowLabel labels_dict r = [v] := by
          unfold rowLabel
          rw [hl]
          rfl
        simp only [alignStep, if_neg hr, hl, List.filter_cons, hkeep, hdrop,
          if_true, Bool.false_eq_true, if_false, List.map_cons, List.length_cons, hlab,
          AlignState.mk.injEq]
        refine ⟨?_, ?_, ?_, ?_⟩ <;> first
          | trivial
          | omega
          | simp [List.append_assoc]
      | none =>
        have hkeep : keepRow labels_dict r = false := by
          unfold keepRow
          rw [hne, hl]
          rfl
        have hdrop : dropRow labels_dict r = true := by
          unfold dropRow
          rw [hne, hl]
          rfl
        simp only [alignStep, if_neg hr, hl, List.filter_cons, hkeep, hdrop,
          if_true, Bool.false_eq_true, if_false, List.length_cons, AlignState.mk.injEq]
        refine ⟨?_, ?_, ?_, ?_⟩ <;> first
          | trivial
          | omega

/-- The success path of `process`: with non-empty tables and an in-range
column index, the run reaches alignment and attempts both saves. -/
theorem processTables_ok (d : Char) (features_data labels_data : Table) (column : Nat)
    (wx wy : WriteOutcome) (hf : features_data ≠ []) (hl : labels_data ≠ [])
    (hc : column < (labels_data.headD []).length) :
    processTables d features_data labels_data column wx wy =
      { counts := ((matchedRows features_data (create_labels_dict labels_data column)).length,
                   (unmatchedRows features_data (create_labels_dict labels_data column)).length),
        err := none,
        writeAttempts :=
          [features_data.headD [] ::
             matchedRows features_data (create_labels_dict labels_data column),
           [(labels_data.headD []).getD column ""] ::
             (matchedRows features_data (create_labels_dict labels_data column)).map
               (rowLabel (create_labels_dict labels_data column))],
        writeResults :=
          [(save_csv d wx (features_data.headD [] ::
              matchedRows features_data (create_labels_dict labels_data column))).fst,
           (save_csv d wy ([(labels_data.headD []).getD column ""] ::
              (matchedRows features_data (create_labels_dict labels_data column)).map
                (rowLabel (create_labels_dict labels_data column)))).fst] } := by
  have h1 : ¬(features_data = [] ∨ labels_data = []) := by simp [hf, hl]
  have h2 : ¬((labels_data.headD []).length ≤ column) := by omega
  unfold processTables
  rw [if_neg h1, if_neg h2]
  simp only [align_data, alignStep_foldl_spec, matchedRows, unmatchedRows, keepRow,
    List.singleton_append, Nat.zero_add]

/-- Folding the insertions of `_create_labels_dict` over any prefix dict:
looking up a key returns the column field of the last qualifying row
bearing that key, and falls back to the prefix dict otherwise. -/
theorem labels_foldl_lookup (column : Nat) (k : String) (rows : List (List String))
    (d0 : List (String × String)) :
    (rows.foldl
        (fun d row =>
          if row ≠ [] ∧ column < row.length then
            dictInsert d (row.headD "") (row.getD column "")
          else d)
        d0).lookup k =
      match rows.reverse.find?
          (fun r => !r.isEmpty && decide (column < r.length) && (r.headD "" == k)) with
      | some r => some (r.getD column "")
      | none => d0.lookup k := by
  induction rows generalizing d0 with
  | nil => simp
  | cons r rs ih =>
    rw [List.foldl_cons, ih, List.reverse_cons, List.find?_append]
    cases hfind : rs.reverse.find?
        (fun r => !r.isEmpty && decide (column < r.length) && (r.headD "" == k)) with
    | some r' => rfl
    | none =>
      rw [Option.none_or]
      by_cases hg : r ≠ [] ∧ column < r.length
      · have hne : r.isEmpty = false := List.isEmpty_eq_false.mpr hg.1
        rw [if_pos hg]
        by_cases hk : r.headD "" = k
        · subst hk
          have hp : (!r.isEmpty && decide (column < r.length) && (r.headD "" == r.headD ""))
              = true := by
            rw [hne, decide_eq_true hg.2, beq_self_eq_true]
            rfl
          rw [List.find?_cons]
          simp only [hp]
          show List.lookup (r.headD "") ((r.headD "", r.getD column "") :: d0) =
            some (r.getD column "")
          rw [List.lookup_cons, beq_self_eq_true]
        · have hbk : (r.headD "" == k) = false := beq_eq_false_iff_ne.mpr hk
          have hp : (!r.isEmpty && decide (column < r.length) && (r.headD "" == k)) = false := by
            rw [hbk, Bool.and_false]
          rw [List.find?_cons]
          simp only [hp, List.find?_nil]
          show List.lookup k ((r.headD "", r.getD column "") :: d0) = List.lookup k d0
          have hkb : (k == r.headD "") = false :=
            beq_eq_false_iff_ne.mpr fun h => hk h.symm
          rw [List.lookup_cons, hkb]
      · have hp : (!r.isEmpty && decide (column < r.length) && (r.headD "" == k)) = false := by
          rcases not_and_or.mp hg with h | h
          · have hrnil : r = [] := not_not.mp h
            subst hrnil
            rfl
          · rw [decide_eq_false h, Bool.and_false, Bool.false_and]
        rw [if_neg hg, List.find?_cons]
        simp only [hp, List.find?_nil]

/-- Lookup characterization of `_create_labels_dict`: the last qualifying
target data row with a given identifier supplies its label. -/
theorem create_labels_dict_lookup (labels_data : Table) (column : Nat) (k : String) :
    (create_labels_dict labels_data column).lookup k =
      ((labels_data.drop 1).reverse.find?
          (fun r => !r.isEmpty && decide (column < r.length) && (r.headD "" == k))).map
        (fun r => r.getD column "") := by
  unfold create_labels_dict
  rw [labels_foldl_lookup]
  cases hfind : (labels_data.drop 1).reverse.find?
      (fun r => !r.isEmpty && decide (column < r.length) && (r.headD "" == k)) <;> simp

/-- Membership in the labels dict: an identifier has an entry iff some
target data row is non-empty, long enough, and carries it. -/
theorem create_labels_dict_mem (labels_data : Table) (column : Nat) (k : String) :
    ((create_labels_dict labels_data column).lookup k).isSome = true ↔
      ∃ r ∈ labels_data.drop 1, r ≠ [] ∧ column < r.length ∧ r.headD "" = k := by
  have hmap : ∀ (o : Option (List String)) (f : List String → String),
      (o.map f).isSome = o.isSome := by
    intro o f
    cases o <;> rfl
  rw [create_labels_dict_lookup, hmap, List.find?_isSome]
  simp only [List.mem_reverse, Bool.and_eq_true, beq_iff_eq, decide_eq_true_eq,
    Bool.not_eq_true', List.isEmpty_eq_false, and_assoc]

/-- Key membership in the labels dict only depends on the multiset of
target data rows, not their order. -/
theorem create_labels_dict_isSome_perm (labels1 labels2 : Table) (column : Nat)
    (hperm : (labels2.drop 1).Perm (labels1.drop 1)) (k : String) :
    ((create_labels_dict labels2 column).lookup k).isSome =
      ((create_labels_dict labels1 column).lookup k).isSome := by
  rw [Bool.eq_iff_iff, create_labels_dict_mem, create_labels_dict_mem]
  constructor
  · rintro ⟨r, hmem, hq⟩
    exact ⟨r, hperm.mem_iff.mp hmem, hq⟩
  · rintro ⟨r, hmem, hq⟩
    exact ⟨r, hperm.mem_iff.mpr hmem, hq⟩

/-- The rows `_align_data` keeps only depend on the multiset of target
data rows. -/
theorem matchedRows_perm (features_data labels1 labels2 : Table) (column : Nat)
    (hperm : (labels2.drop 1).Perm (labels1.drop 1)) :
    matchedRows features_data (create_labels_dict labels2 column) =
      matchedRows features_data (create_labels_dict labels1 column) := by
  unfold matchedRows
  refine List.filter_congr fun r _ => ?_
  unfold keepRow
  rw [create_labels_dict_isSome_perm labels1 labels2 column hperm]

/-- On non-empty rows, the kept rows and the unmatched rows partition the
feature data rows. -/
theorem filter_keep_drop_length (labels_dict : List (String × String))
    (l : List (List String)) (hrows : ∀ r ∈ l, r ≠ []) :
    (l.filter (keepRow labels_dict)).length + (l.filter (dropRow labels_dict)).length
      = l.length := by
  induction l with
  | nil => simp
  | cons r rs ih =>
    have hne : r.isEmpty = false :=
      List.isEmpty_eq_false.mpr (hrows r (List.mem_cons_self r rs))
    have ih' := ih fun r' hr' => hrows r' (List.mem_cons_of_mem r hr')
    cases hs : (labels_dict.lookup (r.headD "")).isSome with
    | true =>
      have hkeep : keepRow labels_dict r = true := by
        unfold keepRow
        rw [hne, hs]
        rfl
      have hdrop : dropRow labels_dict r = false := by
        unfold dropRow
        rw [hne, hs]
        rfl
      simp only [List.filter_cons, hkeep, hdrop, if_true, Bool.false_eq_true, if_false,
        List.length_cons]
      omega
    | false =>
      have hkeep : keepRow labels_dict r = false := by
        unfold keepRow
        rw [hne, hs]
        rfl
      have hdrop : dropRow labels_dict r = true := by
        unfold dropRow
        rw [hne, hs]
        rfl
      simp only [List.filter_cons, hkeep, hdrop, if_true, Bool.false_eq_true, if_false,
        List.length_cons]
      omega

/-- Claim C1.  The X output's data rows are exactly the non-empty feature
data rows whose identifier occurs in the label index, in feature-table
order (the X table handed to `_save_csv` is the feature header followed
by that filtered sequence, and the Y table is positionally parallel to
it); permuting the target table's data rows does not change the X output
at all, so target-table order has no influence on X or Y output row
order. -/
theorem claim_C1 (d : Char) (features_data labels_data labels_data2 : Table) (column : Nat)
    (wx wy : WriteOutcome) (hf : features_data ≠ []) (hl : labels_data ≠ [])
    (hc : column < (labels_data.headD []).length) (hl2 : labels_data2 ≠ [])
    (hhdr : labels_data2.headD [] = labels_data.headD [])
    (hperm : (labels_data2.drop 1).Perm (labels_data.drop 1)) :
    (processTables d features_data labels_data column wx wy).writeAttempts =
        [features_data.headD [] ::
           matchedRows features_data (create_labels_dict labels_data column),
         [(labels_data.headD []).getD column ""] ::
           (matchedRows features_data (create_labels_dict labels_data column)).map
             (rowLabel (create_labels_dict labels_data column))] ∧
      (processTables d features_data labels_data2 column wx wy).writeAttempts.headD [] =
        (processTables d features_data labels_data column wx wy).writeAttempts.headD [] := by
  have hc2 : column < (labels_data2.headD []).length := by rw [hhdr]; exact hc
  rw [processTables_ok d features_data labels_data column wx wy hf hl hc,
    processTables_ok d features_data labels_data2 column wx wy hf hl2 hc2]
  refine ⟨rfl, ?_⟩
  simp only [List.headD_cons, List.cons.injEq]
  exact ⟨trivial, matchedRows_perm features_data labels_data labels_data2 column hperm⟩

/-- Witness for C1 at concrete tables whose target data rows are given in
two different orders. -/
theorem claim_C1_witness :
    (([["ID", "f0"], ["01", "a"], ["03", "b"]] : Table) ≠ [] ∧
      ([["ID", "c1"], ["01", "1"], ["02", "2"]] : Table) ≠ [] ∧
      1 < (([["ID", "c1"], ["01", "1"], ["02", "2"]] : Table).headD []).length ∧
      ([["ID", "c1"], ["02", "2"], ["01", "1"]] : Table) ≠ [] ∧
      ([["ID", "c1"], ["02", "2"], ["01", "1"]] : Table).headD [] =
        ([["ID", "c1"], ["01", "1"], ["02", "2"]] : Table).headD [] ∧
      (([["ID", "c1"], ["02", "2"], ["01", "1"]] : Table).drop 1).Perm
        (([["ID", "c1"], ["01", "1"], ["02", "2"]] : Table).drop 1)) ∧
    ((processTables ',' [["ID", "f0"], ["01", "a"], ["03", "b"]]
          [["ID", "c1"], ["01", "1"], ["02", "2"]] 1 .success .success).writeAttempts =
        [[["ID", "f0"]] ++
           matchedRows [["ID", "f0"], ["01", "a"], ["03", "b"]]
             (create_labels_dict [["ID", "c1"], ["01", "1"], ["02", "2"]] 1),
         [["c1"]] ++
           (matchedRows [["ID", "f0"], ["01", "a"], ["03", "b"]]
               (create_labels_dict [["ID", "c1"], ["01", "1"], ["02", "2"]] 1)).map
             (rowLabel (create_labels_dict [["ID", "c1"], ["01", "1"], ["02", "2"]] 1))] ∧
      (processTables ',' [["ID", "f0"], ["01", "a"], ["03", "b"]]
          [["ID", "c1"], ["02", "2"], ["01", "1"]] 1 .success .success).writeAttempts.headD [] =
        (processTables ',' [["ID", "f0"], ["01", "a"], ["03", "b"]]
            [["ID", "c1"], ["01", "1"], ["02", "2"]] 1 .success .success).writeAttempts.headD []) :=
  ⟨by decide,
    claim_C1 ',' [["ID", "f0"], ["01", "a"], ["03", "b"]]
      [["ID", "c1"], ["01", "1"], ["02", "2"]] [["ID", "c1"], ["02", "2"], ["01", "1"]] 1
      .success .success (by decide) (by decide) (by decide) (by decide) (by decide) (by decide)⟩

/-- Claim C2.  With non-empty inputs, an in-range column and no empty
feature data rows, X and Y carry equally many data rows, both equal to
the matched count, and matched plus unmatched equals the number of
feature rows minus the header. -/
theorem claim_C2 (d : Char) (features_data labels_data : Table) (column : Nat)
    (wx wy : WriteOutcome) (hf : features_data ≠ []) (hl : labels_data ≠ [])
    (hc : column < (labels_data.headD []).length)
    (hrows : ∀ r ∈ features_data.drop 1, r ≠ []) :
    ∃ xout yout,
      (processTables d features_data labels_data column wx wy).writeAttempts = [xout, yout] ∧
      xout.length =
        (processTables d features_data labels_data column wx wy).counts.fst + 1 ∧
      yout.length =
        (processTables d features_data labels_data column wx wy).counts.fst + 1 ∧
      (processTables d features_data labels_data column wx wy).counts.fst +
          (processTables d features_data labels_data column wx wy).counts.snd =
        features_data.length - 1 := by
  rw [processTables_ok d features_data labels_data column wx wy hf hl hc]
  refine ⟨_, _, rfl, by simp, by simp, ?_⟩
  show (matchedRows features_data (create_labels_dict labels_data column)).length +
      (unmatchedRows features_data (create_labels_dict labels_data column)).length = _
  unfold matchedRows unmatchedRows
  rw [filter_keep_drop_length _ _ hrows, List.length_drop]

/-- Witness for C2 on the worked example tables. -/
theorem claim_C2_witness :
    (([["ID", "f0"], ["01", "0.23"], ["02", "0.36"]] : Table) ≠ [] ∧
      ([["ID", "c1", "c2"], ["02", "0", "1"], ["01", "1", "1"]] : Table) ≠ [] ∧
      1 < (([["ID", "c1", "c2"], ["02", "0", "1"], ["01", "1", "1"]] : Table).headD []).length ∧
      (∀ r ∈ ([["ID", "f0"], ["01", "0.23"], ["02", "0.36"]] : Table).drop 1, r ≠ [])) ∧
    (∃ xout yout,
      (processTables ',' [["ID", "f0"], ["01", "0.23"], ["02", "0.36"]]
          [["ID", "c1", "c2"], ["02", "0", "1"], ["01", "1", "1"]] 1 .success
          .success).writeAttempts = [xout, yout] ∧
      xout.length =
        (processTables ',' [["ID", "f0"], ["01", "0.23"], ["02", "0.36"]]
            [["ID", "c1", "c2"], ["02", "0", "1"], ["01", "1", "1"]] 1 .success
            .success).counts.fst + 1 ∧
      yout.length =
        (processTables ',' [["ID", "f0"], ["01", "0.23"], ["02", "0.36"]]
            [["ID", "c1", "c2"], ["02", "0", "1"], ["01", "1", "1"]] 1 .success
            .success).counts.fst + 1 ∧
      (processTables ',' [["ID", "f0"], ["01", "0.23"], ["02", "0.36"]]
            [["ID", "c1", "c2"], ["02", "0", "1"], ["01", "1", "1"]] 1 .success
            .success).counts.fst +
          (processTables ',' [["ID", "f0"], ["01", "0.23"], ["02", "0.36"]]
              [["ID", "c1", "c2"], ["02", "0", "1"], ["01", "1", "1"]] 1 .success
              .success).counts.snd =
        ([["ID", "f0"], ["01", "0.23"], ["02", "0.36"]] : Table).length - 1) :=
  ⟨⟨by decide, by decide, by decide, by decide⟩,
    claim_C2 ',' [["ID", "f0"], ["01", "0.23"], ["02", "0.36"]]
      [["ID", "c1", "c2"], ["02", "0", "1"], ["01", "1", "1"]] 1 .success .success
      (by decide) (by decide) (by decide) (by decide)⟩

/-- Counterexample to claim C3 as stated: a target table with a header
but zero data rows does not trigger the empty-input abort (`if not
self.labels_data` is false for a one-row list), and both output writes
are still attempted. -/
theorem claim_C3_counterexample :
    (processTables ',' [["ID", "f0"], ["01", "0.23"]] [["ID", "c1"]] 1 .success
        .success).err = none ∧
      (processTables ',' [["ID", "f0"], ["01", "0.23"]] [["ID", "c1"]] 1 .success
          .success).writeAttempts = [[["ID", "f0"]], [["c1"]]] := by
  exact ⟨rfl, rfl⟩

/-- Claim C3 as amended: if either table has zero rows (empty or
unreadable file), the run aborts with the empty-input error and neither
output file is written; a header-only target table does not abort. -/
theorem claim_C3 (d : Char) (features_data labels_data : Table) (column : Nat)
    (wx wy : WriteOutcome) (h : features_data = [] ∨ labels_data = []) :
    (processTables d features_data labels_data column wx wy).err =
        some ProcessError.emptyInput ∧
      (processTables d features_data labels_data column wx wy).writeAttempts = [] ∧
      (processTables d features_data labels_data column wx wy).writeResults = [] := by
  unfold processTables
  rw [if_pos h]
  exact ⟨rfl, rfl, rfl⟩

/-- Witness for the amended C3 at an empty feature table. -/
theorem claim_C3_witness :
    (([] : Table) = [] ∨ ([["ID", "c1"]] : Table) = []) ∧
    ((processTables ',' [] [["ID", "c1"]] 1 .success .success).err =
        some ProcessError.emptyInput ∧
      (processTables ',' [] [["ID", "c1"]] 1 .success .success).writeAttempts = [] ∧
      (processTables ',' [] [["ID", "c1"]] 1 .success .success).writeResults = []) :=
  ⟨Or.inl rfl, claim_C3 ',' [] [["ID", "c1"]] 1 .success .success (Or.inl rfl)⟩

/-- Claim C4.  When both tables were read as non-empty, every column
index outside `0 < column < header_field_count` of the target table
makes the run abort with a column error (the lower bound in `main`, the
upper bound in `process`) and hand nothing to `_save_csv`. -/
theorem claim_C4 (d : Char) (fr lr : ReadOutcome) (column : Int) (wx wy : WriteOutcome)
    (hf : read_csv d fr ≠ []) (hl : read_csv d lr ≠ [])
    (hout : ¬(0 < column ∧ column < (((read_csv d lr).headD []).length : Int))) :
    (runXY d fr lr column wx wy).isColumnAbort = true ∧
      (runXY d fr lr column wx wy).writes = [] := by
  unfold runXY
  by_cases hlt : column < 1
  · rw [if_pos hlt]
    exact ⟨rfl, rfl⟩
  · rw [if_neg hlt]
    have h1 : (0 : Int) < column := by omega
    have h2 : ¬column < (((read_csv d lr).headD []).length : Int) := not_and.mp hout h1
    have h3 : ((read_csv d lr).headD []).length ≤ column.toNat := by omega
    have hpt : processTables d (read_csv d fr) (read_csv d lr) column.toNat wx wy =
        { counts := (0, 0), err := some .invalidColumn, writeAttempts := [],
          writeResults := [] } := by
      unfold processTables
      rw [if_neg (by simp [hf, hl]), if_pos h3]
    unfold process
    rw [hpt]
    exact ⟨rfl, rfl⟩

/-- Witness for C4 with readable one-row files and column index 0. -/
theorem claim_C4_witness :
    (read_csv ',' (ReadOutcome.file "a\r\n") ≠ [] ∧
      read_csv ',' (ReadOutcome.file "b\r\n") ≠ [] ∧
      ¬((0 : Int) < 0 ∧ (0 : Int) <
          (((read_csv ',' (ReadOutcome.file "b\r\n")).headD []).length : Int))) ∧
    ((runXY ',' (ReadOutcome.file "a\r\n") (ReadOutcome.file "b\r\n") 0 .success
          .success).isColumnAbort = true ∧
      (runXY ',' (ReadOutcome.file "a\r\n") (ReadOutcome.file "b\r\n") 0 .success
          .success).writes = []) :=
  ⟨⟨by decide, by decide, by decide⟩,
    claim_C4 ',' (ReadOutcome.file "a\r\n") (ReadOutcome.file "b\r\n") 0 .success .success
      (by decide) (by decide) (by decide)⟩

/-- Claim C5.  Looking up an identifier in the labels dict returns the
label field of the last target data row that is non-empty, has more
fields than the column index, and carries that identifier; rows with too
few fields never contribute, and absent identifiers return nothing. -/
theorem claim_C5 (labels_data : Table) (column : Nat) (k : String) :
    (create_labels_dict labels_data column).lookup k =
      ((labels_data.drop 1).reverse.find?
          (fun r => !r.isEmpty && decide (column < r.length) && (r.headD "" == k))).map
        (fun r => r.getD column "") :=
  create_labels_dict_lookup labels_data column k

/-- Claim C8.  The worked example: aligning the two sample tables on
column 1 yields the expected X and Y tables and counts (2, 0). -/
theorem claim_C8 :
    processTables ',' [["ID", "f0"], ["01", "0.23"], ["02", "0.36"]]
        [["ID", "c1", "c2"], ["02", "0", "1"], ["01", "1", "1"]] 1 .success .success =
      { counts := (2, 0),
        err := none,
        writeAttempts := [[["ID", "f0"], ["01", "0.23"], ["02", "0.36"]],
                          [["c1"], ["1"], ["0"]]],
        writeResults := [true, true] } := by
  rfl

/-- Claim C9.  Duplicate feature identifiers are not deduplicated: every
non-empty feature data row whose identifier is in the dict is kept (the
count of kept rows with a given identifier equals the count of non-empty
feature data rows with it), each kept row contributes the same label row
to Y, and the matched count is the number of kept rows — lookups do not
consume dict entries. -/
theorem claim_C9 (d : Char) (features_data labels_data : Table) (column : Nat)
    (wx wy : WriteOutcome) (k v : String) (hf : features_data ≠ [])
    (hl : labels_data ≠ []) (hc : column < (labels_data.headD []).length)
    (hlook : (create_labels_dict labels_data column).lookup k = some v) :
    (processTables d features_data labels_data column wx wy).writeAttempts =
        [features_data.headD [] ::
           matchedRows features_data (create_labels_dict labels_data column),
         [(labels_data.headD []).getD column ""] ::
           (matchedRows features_data (create_labels_dict labels_data column)).map
             (rowLabel (create_labels_dict labels_data column))] ∧
      (matchedRows features_data (create_labels_dict labels_data column)).countP
          (fun r => r.headD "" == k) =
        (features_data.drop 1).countP (fun r => !r.isEmpty && (r.headD "" == k)) ∧
      (∀ r ∈ matchedRows features_data (create_labels_dict labels_data column),
        r.headD "" = k → rowLabel (create_labels_dict labels_data column) r = [v]) ∧
      (processTables d features_data labels_data column wx wy).counts.fst =
        (matchedRows features_data (create_labels_dict labels_data column)).length := by
  refine ⟨?_, ?_, ?_, ?_⟩
  · rw [processTables_ok d features_data labels_data column wx wy hf hl hc]
  · unfold matchedRows
    rw [List.countP_filter]
    have hfun : (fun r : List String =>
          (r.headD "" == k) && keepRow (create_labels_dict labels_data column) r) =
        (fun r : List String => !r.isEmpty && (r.headD "" == k)) := by
      funext r
      cases hbk : (r.headD "" == k) with
      | true =>
        have hk : r.headD "" = k := beq_iff_eq.mp hbk
        unfold keepRow
        rw [hk, hlook]
        cases r.isEmpty <;> rfl
      | false =>
        unfold keepRow
        cases r.isEmpty <;> rfl
    rw [hfun]
  · intro r _ hk
    unfold rowLabel
    rw [hk, hlook]
    rfl
  · rw [processTables_ok d features_data labels_data column wx wy hf hl hc]

/-- Witness for C9: the identifier 01 occurs in two feature data rows and
both are matched against the single dict entry for 01. -/
theorem claim_C9_witness :
    (([["ID", "f"], ["01", "a"], ["01", "b"], ["02", "c"]] : Table) ≠ [] ∧
      ([["ID", "c1"], ["01", "7"]] : Table) ≠ [] ∧
      1 < (([["ID", "c1"], ["01", "7"]] : Table).headD []).length ∧
      (create_labels_dict [["ID", "c1"], ["01", "7"]] 1).lookup "01" = some "7") ∧
    ((processTables ',' [["ID", "f"], ["01", "a"], ["01", "b"], ["02", "c"]]
          [["ID", "c1"], ["01", "7"]] 1 .success .success).writeAttempts =
        [[["ID", "f"]] ++
           matchedRows [["ID", "f"], ["01", "a"], ["01", "b"], ["02", "c"]]
             (create_labels_dict [["ID", "c1"], ["01", "7"]] 1),
         [["c1"]] ++
           (matchedRows [["ID", "f"], ["01", "a"], ["01", "b"], ["02", "c"]]
               (create_labels_dict [["ID", "c1"], ["01", "7"]] 1)).map
             (rowLabel (create_labels_dict [["ID", "c1"], ["01", "7"]] 1))] ∧
      (matchedRows [["ID", "f"], ["01", "a"], ["01", "b"], ["02", "c"]]
            (create_labels_dict [["ID", "c1"], ["01", "7"]] 1)).countP
          (fun r => r.headD "" == "01") =
        (([["ID", "f"], ["01", "a"], ["01", "b"], ["02", "c"]] : Table).drop 1).countP
          (fun r => !r.isEmpty && (r.headD "" == "01")) ∧
      (∀ r ∈ matchedRows [["ID", "f"], ["01", "a"], ["01", "b"], ["02", "c"]]
            (create_labels_dict [["ID", "c1"], ["01", "7"]] 1),
        r.headD "" = "01" →
          rowLabel (create_labels_dict [["ID", "c1"], ["01", "7"]] 1) r = ["7"]) ∧
      (processTables ',' [["ID", "f"], ["01", "a"], ["01", "b"], ["02", "c"]]
            [["ID", "c1"], ["01", "7"]] 1 .success .success).counts.fst =
        (matchedRows [["ID", "f"], ["01", "a"], ["01", "b"], ["02", "c"]]
            (create_labels_dict [["ID", "c1"], ["01", "7"]] 1)).length) :=
  ⟨⟨by decide, by decide, by decide, by decide⟩,
    claim_C9 ',' [["ID", "f"], ["01", "a"], ["01", "b"], ["02", "c"]]
      [["ID", "c1"], ["01", "7"]] 1 .success .success "01" "7" (by decide) (by decide)
      (by decide) (by decide)⟩

/-- Claim C10.  Write failures never change the result of a run: the
counts, the error outcome and the tables handed to `_save_csv` are the
same whether the writes succeed or fail; on the non-error path both
saves are attempted (the Y save regardless of the X save's outcome) with
their results recorded; and `_save_csv` returns True exactly on success,
catching every failure as False. -/
theorem claim_C10 (d : Char) (features_data labels_data : Table) (column : Nat)
    (wx wy : WriteOutcome) :
    ((processTables d features_data labels_data column wx wy).counts =
        (processTables d features_data labels_data column .success .success).counts) ∧
      ((processTables d features_data labels_data column wx wy).err =
        (processTables d features_data labels_data column .success .success).err) ∧
      ((processTables d features_data labels_data column wx wy).writeAttempts =
        (processTables d features_data labels_data column .success .success).writeAttempts) ∧
      ((processTables d features_data labels_data column wx wy).err = none →
        ∃ xout yout,
          (processTables d features_data labels_data column wx wy).writeAttempts =
              [xout, yout] ∧
            (processTables d features_data labels_data column wx wy).writeResults =
              [(save_csv d wx xout).fst, (save_csv d wy yout).fst]) ∧
      (∀ (w : WriteOutcome) (data : Table),
        (save_csv d w data).fst = true ↔ w = WriteOutcome.success) := by
  have hsave : ∀ (w : WriteOutcome) (data : Table),
      (save_csv d w data).fst = true ↔ w = WriteOutcome.success := by
    intro w data
    cases w <;> simp [save_csv]
  unfold processTables
  by_cases h1 : features_data = [] ∨ labels_data = []
  · rw [if_pos h1, if_pos h1]
    exact ⟨rfl, rfl, rfl, fun h => absurd h (by simp), hsave⟩
  · rw [if_neg h1, if_neg h1]
    by_cases h2 : (labels_data.headD []).length ≤ column
    · rw [if_pos h2, if_pos h2]
      exact ⟨rfl, rfl, rfl, fun h => absurd h (by simp), hsave⟩
    · rw [if_neg h2, if_neg h2]
      exact ⟨rfl, rfl, rfl, fun _ => ⟨_, _, rfl, rfl⟩, hsave⟩

/-- Witness for C10 with a failing X write and a succeeding Y write. -/
theorem claim_C10_witness :
    ((processTables ',' [["ID"], ["01"]] [["ID", "c"], ["01", "1"]] 1
          .permissionDenied .success).counts =
        (processTables ',' [["ID"], ["01"]] [["ID", "c"], ["01", "1"]] 1 .success
            .success).counts) ∧
      ((processTables ',' [["ID"], ["01"]] [["ID", "c"], ["01", "1"]] 1
          .permissionDenied .success).err =
        (processTables ',' [["ID"], ["01"]] [["ID", "c"], ["01", "1"]] 1 .success
            .success).err) ∧
      ((processTables ',' [["ID"], ["01"]] [["ID", "c"], ["01", "1"]] 1
          .permissionDenied .success).writeAttempts =
        (processTables ',' [["ID"], ["01"]] [["ID", "c"], ["01", "1"]] 1 .success
            .success).writeAttempts) ∧
      ((processTables ',' [["ID"], ["01"]] [["ID", "c"], ["01", "1"]] 1
          .permissionDenied .success).err = none →
        ∃ xout yout,
          (processTables ',' [["ID"], ["01"]] [["ID", "c"], ["01", "1"]] 1
              .permissionDenied .success).writeAttempts = [xout, yout] ∧
            (processTables ',' [["ID"], ["01"]] [["ID", "c"], ["01", "1"]] 1
                .permissionDenied .success).writeResults =
              [(save_csv ',' .permissionDenied xout).fst,
               (save_csv ',' .success yout).fst]) ∧
      (∀ (w : WriteOutcome) (data : Table),
        (save_csv ',' w data).fst = true ↔ w = WriteOutcome.success) :=
  claim_C10 ',' [["ID"], ["01"]] [["ID", "c"], ["01", "1"]] 1 .permissionDenied .success

/-- Building a string from the character list of a string is the
identity. -/
theorem string_mk_toList (s : String) : String.mk s.toList = s := by
  cases s
  rfl

/-- The character list of a built string is the original list. -/
theorem string_toList_mk (l : List Char) : (String.mk l).toList = l := rfl

/-- A field that needs no quoting contains no delimiter, quote or
line-break character. -/
theorem csvNeedsQuote_eq_false (d : Char) (f : List Char) (h : csvNeedsQuote d f = false) :
    ∀ c ∈ f, c ≠ d ∧ c ≠ '"' ∧ c ≠ '\r' ∧ c ≠ '\n' := by
  intro c hc
  have hcq := List.any_eq_false.mp h c hc
  simp only [decide_eq_true_eq] at hcq
  push_neg at hcq
  exact hcq

/-- Consuming an escaped field body inside a quoted field accumulates
exactly the original characters and stops at the closing quote; no
append hits the field size limit while the whole field fits in it. -/
theorem csv_quoted_consume (d : Char) (f : List Char) (rest : List Char) (row : List String)
    (acc : List Char) (hlen : acc.length + f.length ≤ fieldLimit) :
    csvParseAux d (csvEscape f ++ '"' :: rest) (.inQuoted row acc) =
      csvParseAux d rest (.quoteInQuoted row (acc ++ f)) := by
  induction f generalizing acc with
  | nil => simp [csvEscape, csvParseAux]
  | cons c cs ih =>
    have hroom : ¬fieldLimit ≤ acc.length := by
      simp only [List.length_cons] at hlen
      omega
    have hadd : csvAddChar acc c = some (acc ++ [c]) := by
      unfold csvAddChar
      rw [if_neg hroom]
    have hlen' : (acc ++ [c]).length + cs.length ≤ fieldLimit := by
      simp only [List.length_append, List.length_cons, List.length_nil] at hlen ⊢
      omega
    by_cases hc : c = '"'
    · subst hc
      show csvParseAux d ('"' :: '"' :: (csvEscape cs ++ '"' :: rest)) (.inQuoted row acc) = _
      simp only [csvParseAux, if_pos rfl]
      rw [hadd]
      simp only [Option.some_bind]
      rw [ih _ hlen']
      simp [List.append_assoc]
    · have he : csvEscape (c :: cs) = c :: csvEscape cs := by
        simp [csvEscape, hc]
      rw [he, List.cons_append]
      simp only [csvParseAux, if_neg hc]
      rw [hadd]
      simp only [Option.some_bind]
      rw [ih _ hlen']
      simp [List.append_assoc]

/-- Consuming plain field characters inside an unquoted field
accumulates them unchanged while the field fits in the size limit. -/
theorem csv_infield_consume (d : Char) (f rest : List Char) (row : List String)
    (acc : List Char) (hok : ∀ c ∈ f, c ≠ d ∧ c ≠ '\r' ∧ c ≠ '\n')
    (hlen : acc.length + f.length ≤ fieldLimit) :
    csvParseAux d (f ++ rest) (.inField row acc) =
      csvParseAux d rest (.inField row (acc ++ f)) := by
  induction f generalizing acc with
  | nil => simp
  | cons c cs ih =>
    obtain ⟨hcd, hcr, hcn⟩ := hok c (List.mem_cons_self c cs)
    have hroom : ¬fieldLimit ≤ acc.length := by
      simp only [List.length_cons] at hlen
      omega
    have hadd : csvAddChar acc c = some (acc ++ [c]) := by
      unfold csvAddChar
      rw [if_neg hroom]
    have hlen' : (acc ++ [c]).length + cs.length ≤ fieldLimit := by
      simp only [List.length_append, List.length_cons, List.length_nil] at hlen ⊢
      omega
    show csvParseAux d (c :: (cs ++ rest)) (.inField row acc) = _
    simp only [csvParseAux, if_neg hcd, if_neg hcr, if_neg hcn]
    rw [hadd]
    simp only [Option.some_bind]
    rw [ih _ (fun c' hc' => hok c' (List.mem_cons_of_mem c hc')) hlen']
    simp [List.append_assoc]

/-- Reading one rendered field from inside a record, followed by a
delimiter, appends exactly that field to the record. -/
theorem csv_field_then_delim (d : Char) (hdq : d ≠ '"') (hdr : d ≠ '\r') (hdn : d ≠ '\n')
    (f : String) (rest : List Char) (row : List String) (hf : f.length ≤ fieldLimit) :
    csvParseAux d (csvRenderField d false f ++ d :: rest) (.startField row) =
      csvParseAux d rest (.startField (row ++ [f])) := by
  have hfl : f.toList.length ≤ fieldLimit := hf
  unfold csvRenderField
  simp only [Bool.false_and, Bool.or_false]
  cases hq : csvNeedsQuote d f.toList with
  | true =>
    rw [if_pos rfl, List.cons_append, List.append_assoc, List.singleton_append]
    rw [show csvParseAux d ('"' :: (csvEscape f.toList ++ '"' :: d :: rest)) (.startField row) =
          csvParseAux d (csvEscape f.toList ++ '"' :: d :: rest) (.inQuoted row []) from by
      simp [csvParseAux]]
    rw [csv_quoted_consume d f.toList _ row [] (by simpa using hfl), List.nil_append]
    simp [csvParseAux, hdq, string_mk_toList]
  | false =>
    rw [if_neg Bool.false_ne_true]
    have hchars := csvNeedsQuote_eq_false d f.toList hq
    cases hft : f.toList with
    | nil =>
      have hf0 : f = "" := by
        rw [← string_mk_toList f, hft]
      subst hf0
      simp [csvParseAux, hdq]
    | cons c cs =>
      obtain ⟨hcd, hcq, hcr, hcn⟩ := hchars c (by rw [hft]; exact List.mem_cons_self c cs)
      rw [List.cons_append]
      rw [show csvParseAux d (c :: (cs ++ d :: rest)) (.startField row) =
            (csvAddChar [] c).bind
              (fun fld => csvParseAux d (cs ++ d :: rest) (.inField row fld)) from by
        simp [csvParseAux, hcq, hcd, hcr, hcn]]
      rw [show csvAddChar [] c = some [c] from by
        unfold csvAddChar
        rw [if_neg (by decide)]
        rfl]
      simp only [Option.some_bind]
      rw [csv_infield_consume d cs _ row [c] (fun c' hc' => by
        have h := hchars c' (by rw [hft]; exact List.mem_cons_of_mem c hc')
        exact ⟨h.1, h.2.2.1, h.2.2.2⟩) (by
        have hlcs : (c :: cs).length ≤ fieldLimit := by
          rw [← hft]
          exact hfl
        simp only [List.length_cons, List.length_nil] at hlcs ⊢
        omega)]
      rw [show csvParseAux d (d :: rest) (.inField row ([c] ++ cs)) =
            csvParseAux d rest (.startField (row ++ [String.mk ([c] ++ cs)])) from by
        simp [csvParseAux]]
      rw [List.singleton_append, ← hft, string_mk_toList]

/-- Reading one rendered field from inside a record, followed by the
record terminator, emits the completed record. -/
theorem csv_field_then_crlf (d : Char) (hdq : d ≠ '"') (hdr : d ≠ '\r') (hdn : d ≠ '\n')
    (q : Bool) (f : String) (rest : List Char) (row : List String)
    (hf : f.length ≤ fieldLimit) :
    csvParseAux d (csvRenderField d q f ++ '\r' :: '\n' :: rest) (.startField row) =
      (csvParseAux d rest .startRecord).map (fun t => (row ++ [f]) :: t) := by
  have hfl : f.toList.length ≤ fieldLimit := hf
  have hrd : ('\r' : Char) ≠ d := fun h => hdr h.symm
  unfold csvRenderField
  cases hcond : (csvNeedsQuote d f.toList || (q && f.toList.isEmpty)) with
  | true =>
    rw [if_pos rfl, List.cons_append, List.append_assoc, List.singleton_append]
    rw [show csvParseAux d ('"' :: (csvEscape f.toList ++ '"' :: '\r' :: '\n' :: rest))
          (.startField row) =
          csvParseAux d (csvEscape f.toList ++ '"' :: '\r' :: '\n' :: rest)
            (.inQuoted row []) from by
      simp [csvParseAux]]
    rw [csv_quoted_consume d f.toList _ row [] (by simpa using hfl), List.nil_append]
    simp [csvParseAux, hrd, string_mk_toList]
  | false =>
    rw [if_neg Bool.false_ne_true]
    have hq : csvNeedsQuote d f.toList = false := by
      cases hnq : csvNeedsQuote d f.toList
      · rfl
      · rw [hnq] at hcond
        simp at hcond
    have hchars := csvNeedsQuote_eq_false d f.toList hq
    cases hft : f.toList with
    | nil =>
      have hf0 : f = "" := by
        rw [← string_mk_toList f, hft]
      subst hf0
      simp [csvParseAux, hrd]
    | cons c cs =>
      obtain ⟨hcd, hcq, hcr, hcn⟩ := hchars c (by rw [hft]; exact List.mem_cons_self c cs)
      rw [List.cons_append]
      rw [show csvParseAux d (c :: (cs ++ '\r' :: '\n' :: rest)) (.startField row) =
            (csvAddChar [] c).bind
              (fun fld =>
                csvParseAux d (cs ++ '\r' :: '\n' :: rest) (.inField row fld)) from by
        simp [csvParseAux, hcq, hcd, hcr, hcn]]
      rw [show csvAddChar [] c = some [c] from by
        unfold csvAddChar
        rw [if_neg (by decide)]
        rfl]
      simp only [Option.some_bind]
      rw [csv_infield_consume d cs _ row [c] (fun c' hc' => by
        have h := hchars c' (by rw [hft]; exact List.mem_cons_of_mem c hc')
        exact ⟨h.1, h.2.2.1, h.2.2.2⟩) (by
        have hlcs : (c :: cs).length ≤ fieldLimit := by
          rw [← hft]
          exact hfl
        simp only [List.length_cons, List.length_nil] at hlcs ⊢
        omega)]
      rw [show csvParseAux d ('\r' :: '\n' :: rest) (.inField row ([c] ++ cs)) =
            (csvParseAux d rest .startRecord).map
              (fun t => (row ++ [String.mk ([c] ++ cs)]) :: t) from by
        simp [csvParseAux, hrd]]
      rw [List.singleton_append, ← hft, string_mk_toList]

/-- Reading the first rendered field of a multi-field record from the
start of a record, followed by a delimiter, opens the record with it. -/
theorem csv_first_field_then_delim (d : Char) (hdq : d ≠ '"') (hdr : d ≠ '\r')
    (hdn : d ≠ '\n') (f : String) (rest : List Char) (hf : f.length ≤ fieldLimit) :
    csvParseAux d (csvRenderField d false f ++ d :: rest) .startRecord =
      csvParseAux d rest (.startField [f]) := by
  have hfl : f.toList.length ≤ fieldLimit := hf
  unfold csvRenderField
  simp only [Bool.false_and, Bool.or_false]
  cases hq : csvNeedsQuote d f.toList with
  | true =>
    rw [if_pos rfl, List.cons_append, List.append_assoc, List.singleton_append]
    rw [show csvParseAux d ('"' :: (csvEscape f.toList ++ '"' :: d :: rest)) .startRecord =
          csvParseAux d (csvEscape f.toList ++ '"' :: d :: rest) (.inQuoted [] []) from by
      simp [csvParseAux]]
    rw [csv_quoted_consume d f.toList _ [] [] (by simpa using hfl), List.nil_append]
    simp [csvParseAux, hdq, string_mk_toList]
  | false =>
    rw [if_neg Bool.false_ne_true]
    have hchars := csvNeedsQuote_eq_false d f.toList hq
    cases hft : f.toList with
    | nil =>
      have hf0 : f = "" := by
        rw [← string_mk_toList f, hft]
      subst hf0
      simp [csvParseAux, hdq]
    | cons c cs =>
      obtain ⟨hcd, hcq, hcr, hcn⟩ := hchars c (by rw [hft]; exact List.mem_cons_self c cs)
      rw [List.cons_append]
      rw [show csvParseAux d (c :: (cs ++ d :: rest)) .startRecord =
            (csvAddChar [] c).bind
              (fun fld => csvParseAux d (cs ++ d :: rest) (.inField [] fld)) from by
        simp [csvParseAux, hcq, hcd, hcr, hcn]]
      rw [show csvAddChar [] c = some [c] from by
        unfold csvAddChar
        rw [if_neg (by decide)]
        rfl]
      simp only [Option.some_bind]
      rw [csv_infield_consume d cs _ [] [c] (fun c' hc' => by
        have h := hchars c' (by rw [hft]; exact List.mem_cons_of_mem c hc')
        exact ⟨h.1, h.2.2.1, h.2.2.2⟩) (by
        have hlcs : (c :: cs).length ≤ fieldLimit := by
          rw [← hft]
          exact hfl
        simp only [List.length_cons, List.length_nil] at hlcs ⊢
        omega)]
      rw [show csvParseAux d (d :: rest) (.inField [] ([c] ++ cs)) =
            csvParseAux d rest (.startField ([] ++ [String.mk ([c] ++ cs)])) from by
        simp [csvParseAux]]
      rw [List.singleton_append, List.nil_append, ← hft, string_mk_toList]

/-- Reading the rendered sole field of a one-field record from the start
of a record, followed by the terminator, emits that record. -/
theorem csv_sole_field_then_crlf (d : Char) (hdq : d ≠ '"') (hdr : d ≠ '\r')
    (hdn : d ≠ '\n') (f : String) (rest : List Char) (hf : f.length ≤ fieldLimit) :
    csvParseAux d (csvRenderField d true f ++ '\r' :: '\n' :: rest) .startRecord =
      (csvParseAux d rest .startRecord).map (fun t => [f] :: t) := by
  have hfl : f.toList.length ≤ fieldLimit := hf
  have hrd : ('\r' : Char) ≠ d := fun h => hdr h.symm
  unfold csvRenderField
  cases hcond : (csvNeedsQuote d f.toList || (true && f.toList.isEmpty)) with
  | true =>
    rw [if_pos rfl, List.cons_append, List.append_assoc, List.singleton_append]
    rw [show csvParseAux d ('"' :: (csvEscape f.toList ++ '"' :: '\r' :: '\n' :: rest))
          .startRecord =
          csvParseAux d (csvEscape f.toList ++ '"' :: '\r' :: '\n' :: rest)
            (.inQuoted [] []) from by
      simp [csvParseAux]]
    rw [csv_quoted_consume d f.toList _ [] [] (by simpa using hfl), List.nil_append]
    simp [csvParseAux, hrd, string_mk_toList]
  | false =>
    rw [if_neg Bool.false_ne_true]
    have hq : csvNeedsQuote d f.toList = false := by
      cases hnq : csvNeedsQuote d f.toList
      · rfl
      · rw [hnq] at hcond
        simp at hcond
    have hne : f.toList.isEmpty = false := by
      cases hie : f.toList.isEmpty
      · rfl
      · rw [hq, hie] at hcond
        simp at hcond
    have hchars := csvNeedsQuote_eq_false d f.toList hq
    cases hft : f.toList with
    | nil =>
      rw [hft] at hne
      simp at hne
    | cons c cs =>
      obtain ⟨hcd, hcq, hcr, hcn⟩ := hchars c (by rw [hft]; exact List.mem_cons_self c cs)
      rw [List.cons_append]
      rw [show csvParseAux d (c :: (cs ++ '\r' :: '\n' :: rest)) .startRecord =
            (csvAddChar [] c).bind
              (fun fld =>
                csvParseAux d (cs ++ '\r' :: '\n' :: rest) (.inField [] fld)) from by
        simp [csvParseAux, hcq, hcd, hcr, hcn]]
      rw [show csvAddChar [] c = some [c] from by
        unfold csvAddChar
        rw [if_neg (by decide)]
        rfl]
      simp only [Option.some_bind]
      rw [csv_infield_consume d cs _ [] [c] (fun c' hc' => by
        have h := hchars c' (by rw [hft]; exact List.mem_cons_of_mem c hc')
        exact ⟨h.1, h.2.2.1, h.2.2.2⟩) (by
        have hlcs : (c :: cs).length ≤ fieldLimit := by
          rw [← hft]
          exact hfl
        simp only [List.length_cons, List.length_nil] at hlcs ⊢
        omega)]
      rw [show csvParseAux d ('\r' :: '\n' :: rest) (.inField [] ([c] ++ cs)) =
            (csvParseAux d rest .startRecord).map
              (fun t => ([] ++ [String.mk ([c] ++ cs)]) :: t) from by
        simp [csvParseAux, hrd]]
      rw [List.singleton_append, List.nil_append, ← hft, string_mk_toList]

/-- Reading the remaining rendered fields of a record appends them all
and emits the record at the terminator. -/
theorem csv_row2_consume (d : Char) (hdq : d ≠ '"') (hdr : d ≠ '\r') (hdn : d ≠ '\n')
    (fs : List String) (f : String) (rest : List Char) (row : List String)
    (hfr : f.length ≤ fieldLimit) (hfs : ∀ g ∈ fs, g.length ≤ fieldLimit) :
    csvParseAux d (csvRenderRow2 d f fs ++ rest) (.startField row) =
      (csvParseAux d rest .startRecord).map (fun t => (row ++ f :: fs) :: t) := by
  induction fs generalizing f row with
  | nil =>
    show csvParseAux d ((csvRenderField d false f ++ ['\r', '\n']) ++ rest)
        (.startField row) = _
    rw [List.append_assoc]
    exact csv_field_then_crlf d hdq hdr hdn false f rest row hfr
  | cons f2 fs ih =>
    show csvParseAux d ((csvRenderField d false f ++ d :: csvRenderRow2 d f2 fs) ++ rest)
        (.startField row) = _
    rw [List.append_assoc, List.cons_append,
      csv_field_then_delim d hdq hdr hdn f _ row hfr,
      ih f2 (row ++ [f]) (hfs f2 (List.mem_cons_self f2 fs))
        (fun g hg => hfs g (List.mem_cons_of_mem f2 hg))]
    simp [List.append_assoc]

/-- Reading one rendered record from the start of a record emits exactly
that record and leaves the parser at the start of the next one. -/
theorem csv_row_consume (d : Char) (hdq : d ≠ '"') (hdr : d ≠ '\r') (hdn : d ≠ '\n')
    (r : List String) (rest : List Char) (hr : ∀ f ∈ r, f.length ≤ fieldLimit) :
    csvParseAux d (csvRenderRow d r ++ rest) .startRecord =
      (csvParseAux d rest .startRecord).map (fun t => r :: t) := by
  have hrd : ('\r' : Char) ≠ d := fun h => hdr h.symm
  match r with
  | [] =>
    show csvParseAux d (['\r', '\n'] ++ rest) .startRecord = _
    simp [csvParseAux, hrd]
  | [f] =>
    show csvParseAux d ((csvRenderField d true f ++ ['\r', '\n']) ++ rest) .startRecord = _
    rw [List.append_assoc]
    exact csv_sole_field_then_crlf d hdq hdr hdn f rest (hr f (List.mem_cons_self f []))
  | f :: f2 :: fs =>
    show csvParseAux d ((csvRenderField d false f ++ d :: csvRenderRow2 d f2 fs) ++ rest)
        .startRecord = _
    rw [List.append_assoc, List.cons_append,
      csv_first_field_then_delim d hdq hdr hdn f _ (hr f (List.mem_cons_self f (f2 :: fs))),
      csv_row2_consume d hdq hdr hdn fs f2 rest [f]
        (hr f2 (List.mem_cons_of_mem f (List.mem_cons_self f2 fs)))
        (fun g hg => hr g (List.mem_cons_of_mem f (List.mem_cons_of_mem f2 hg)))]
    rfl

/-- Parsing the rendered characters of a table whose fields all fit in
the field size limit recovers that table without error. -/
theorem csv_parse_render_table (d : Char) (hdq : d ≠ '"') (hdr : d ≠ '\r') (hdn : d ≠ '\n')
    (t : Table) (hlen : ∀ r ∈ t, ∀ f ∈ r, f.length ≤ fieldLimit) :
    csvParseAux d (csvRenderTable d t) .startRecord = some t := by
  induction t with
  | nil => rfl
  | cons r rs ih =>
    show csvParseAux d (csvRenderRow d r ++ csvRenderTable d rs) .startRecord = some (r :: rs)
    rw [csv_row_consume d hdq hdr hdn r _ (hlen r (List.mem_cons_self r rs)),
      ih (fun r' hr' => hlen r' (List.mem_cons_of_mem r hr'))]
    rfl

/-- A run of plain field characters one longer than the room left by the
field size limit makes the reader raise the field-limit error. -/
theorem csv_infield_overflow (k : Nat) (acc : List Char) (row : List String)
    (rest : List Char) (h : fieldLimit ≤ acc.length + k) :
    csvParseAux ',' (List.replicate (k + 1) 'a' ++ rest) (.inField row acc) = none := by
  induction k generalizing acc with
  | zero =>
    have hov : fieldLimit ≤ acc.length := by omega
    rw [List.replicate_one, List.singleton_append]
    simp [csvParseAux, csvAddChar, hov]
  | succ k ih =>
    rw [List.replicate_succ, List.cons_append]
    by_cases hov : fieldLimit ≤ acc.length
    · simp [csvParseAux, csvAddChar, hov]
    · have hadd : csvAddChar acc 'a' = some (acc ++ ['a']) := by
        unfold csvAddChar
        rw [if_neg hov]
      rw [show csvParseAux ',' ('a' :: (List.replicate (k + 1) 'a' ++ rest))
            (.inField row acc) =
            (csvAddChar acc 'a').bind
              (fun fld =>
                csvParseAux ',' (List.replicate (k + 1) 'a' ++ rest)
                  (.inField row fld)) from by
        simp [csvParseAux]]
      rw [hadd]
      simp only [Option.some_bind]
      apply ih
      simp only [List.length_append, List.length_cons, List.length_nil]
      omega

/-- Counterexample to claim C7 as stated: a table whose only field is
one character longer than csv.field_size_limit is written without error,
but re-reading it raises csv.Error inside the reader, `_read_csv`
returns the empty table, and the round trip fails. -/
theorem claim_C7_counterexample :
    read_csv ','
        (ReadOutcome.file
          (csvRender ',' [[String.mk (List.replicate (fieldLimit + 1) 'a')]])) = [] ∧
      ([[String.mk (List.replicate (fieldLimit + 1) 'a')]] : Table) ≠ [] := by
  constructor
  · have hnq : csvNeedsQuote ',' (List.replicate (fieldLimit + 1) 'a') = false := by
      refine List.any_eq_false.mpr fun c hc => ?_
      rw [List.eq_of_mem_replicate hc]
      decide
    have hfield : csvRenderField ',' true (String.mk (List.replicate (fieldLimit + 1) 'a')) =
        List.replicate (fieldLimit + 1) 'a' := by
      unfold csvRenderField
      rw [string_toList_mk, hnq]
      rw [show (List.replicate (fieldLimit + 1) 'a').isEmpty = false from by
        rw [List.replicate_succ]
        rfl]
      rfl
    show (csvParse ','
        (csvRender ',' [[String.mk (List.replicate (fieldLimit + 1) 'a')]])).getD [] = []
    unfold csvRender csvParse
    rw [string_toList_mk]
    show (csvParseAux ','
        ((csvRenderField ',' true (String.mk (List.replicate (fieldLimit + 1) 'a')) ++
            ['\r', '\n']) ++ [])
        .startRecord).getD [] = []
    have hstep0 : ∀ tail : List Char,
        csvParseAux ',' ('a' :: tail) .startRecord =
          (csvAddChar [] 'a').bind (fun fld => csvParseAux ',' tail (.inField [] fld)) := by
      intro tail
      simp [csvParseAux]
    rw [List.append_nil, hfield, List.replicate_succ, List.cons_append, hstep0]
    rw [show csvAddChar [] 'a' = some ['a'] from by
      unfold csvAddChar
      rw [if_neg (by decide)]
      rfl]
    rw [Option.some_bind]
    show (csvParseAux ',' (List.replicate fieldLimit 'a' ++ ['\r', '\n'])
        (.inField [] ['a'])).getD [] = []
    rw [show List.replicate fieldLimit 'a' = List.replicate ((fieldLimit - 1) + 1) 'a' from by
      rw [show (fieldLimit - 1) + 1 = fieldLimit from by decide]]
    rw [csv_infield_overflow (fieldLimit - 1) ['a'] [] ['\r', '\n'] (by
      simp only [List.length_cons, List.length_nil]
      decide)]
    rfl
  · exact List.cons_ne_nil _ _

/-- Claim C7 as amended.  Round trip for tables within the reader's
field size limit: a successful `_save_csv` writes the rendered
characters of the table, and `_read_csv` on that file content with the
same delimiter (any delimiter other than the quote and line-break
characters) recovers the table field for field, provided every field is
at most csv.field_size_limit (131072) characters long. -/
theorem claim_C7 (data : Table) (d : Char) (hdq : d ≠ '"') (hdr : d ≠ '\r')
    (hdn : d ≠ '\n') (hlen : ∀ r ∈ data, ∀ f ∈ r, f.length ≤ fieldLimit) :
    (save_csv d WriteOutcome.success data).snd = some (csvRender d data) ∧
      read_csv d (ReadOutcome.file (csvRender d data)) = data := by
  refine ⟨rfl, ?_⟩
  show (csvParse d (csvRender d data)).getD [] = data
  unfold csvParse csvRender
  rw [string_toList_mk, csv_parse_render_table d hdq hdr hdn data hlen]
  rfl

/-- Witness for the amended C7 at the comma delimiter on a table that
exercises quoting (embedded delimiter, quote, line break, empty sole
field), with all fields far below the field size limit. -/
theorem claim_C7_witness :
    ((',' : Char) ≠ '"' ∧ (',' : Char) ≠ '\r' ∧ (',' : Char) ≠ '\n' ∧
      (∀ r ∈ ([["ID", "f0"], ["01", "a,b"], ["02", "q\"x"], [""], []] : Table),
        ∀ f ∈ r, f.length ≤ fieldLimit)) ∧
    ((save_csv ',' WriteOutcome.success
          [["ID", "f0"], ["01", "a,b"], ["02", "q\"x"], [""], []]).snd =
        some (csvRender ',' [["ID", "f0"], ["01", "a,b"], ["02", "q\"x"], [""], []]) ∧
      read_csv ','
          (ReadOutcome.file
            (csvRender ',' [["ID", "f0"], ["01", "a,b"], ["02", "q\"x"], [""], []])) =
        [["ID", "f0"], ["01", "a,b"], ["02", "q\"x"], [""], []]) :=
  ⟨⟨by decide, by decide, by decide, by decide⟩,
    claim_C7 [["ID", "f0"], ["01", "a,b"], ["02", "q\"x"], [""], []] ','
      (by decide) (by decide) (by decide) (by decide)⟩


/-- Claim C6.  `_read_csv` is total: every caught error yields the empty
table, the empty file parses to the empty table, and a failing read of
either input is then caught by the orchestration's empty-input check. -/
theorem claim_C6 (d : Char) :
    (read_csv d ReadOutcome.fileNotFound = [] ∧
        read_csv d ReadOutcome.permissionDenied = [] ∧
        read_csv d ReadOutcome.otherFailure = [] ∧
        read_csv d (ReadOutcome.file "") = []) ∧
      (∀ (o lr : ReadOutcome) (column : Nat) (wx wy : WriteOutcome),
        (o = ReadOutcome.fileNotFound ∨ o = ReadOutcome.permissionDenied ∨
            o = ReadOutcome.otherFailure) →
          (process d o lr column wx wy).err = some ProcessError.emptyInput) := by
  refine ⟨⟨rfl, rfl, rfl, rfl⟩, ?_⟩
  rintro o lr column wx wy (h | h | h) <;> subst h <;>
    · show (processTables d [] (read_csv d lr) column wx wy).err = _
      unfold processTables
      rw [if_pos (Or.inl rfl)]

/-- Witness for C6: a missing feature file leads to the empty-input
error. -/
theorem claim_C6_witness :
    (ReadOutcome.fileNotFound = ReadOutcome.fileNotFound ∨
        ReadOutcome.fileNotFound = ReadOutcome.permissionDenied ∨
        ReadOutcome.fileNotFound = ReadOutcome.otherFailure) ∧
      read_csv ',' ReadOutcome.fileNotFound = [] ∧
      read_csv ',' (ReadOutcome.file "") = [] ∧
      (process ',' ReadOutcome.fileNotFound (ReadOutcome.file "a\r\n") 1 .success
          .success).err = some ProcessError.emptyInput :=
  ⟨Or.inl rfl, (claim_C6 ',').1.1, (claim_C6 ',').1.2.2.2,
    (claim_C6 ',').2 ReadOutcome.fileNotFound (ReadOutcome.file "a\r\n") 1 .success .success
      (Or.inl rfl)⟩

end XYMaker
